import Mathlib

/-!
Shallow embedding of `azuread/helpers/graph/group.go` from
`terraform-provider-azuread`, together with proofs about its behaviour.

Conventions of the embedding:
* Go `*T` pointer fields that may be nil become `Option T`; dereferencing a
  nil pointer is modelled by the `PRes.panic` outcome.
* Remote calls of the SDK client are modelled by outcome functions stored in
  a `GroupsClient` record: each function maps the call's arguments (and,
  for calls that are made repeatedly, the index of the invocation) to the
  result the remote end would produce.  Client-produced Go `error` values
  are opaque `String`s.
* Every `fmt.Errorf` site of the Go file becomes one constructor of `GErr`
  carrying exactly the arguments interpolated at that site; a constructor
  with a `GErr` field wraps the underlying error.
* `time.Sleep` calls are counted in the returned trace records.
-/

/-- Result of running a piece of Go code that may dereference a nil
pointer: either it panics or it produces a value. -/
inductive PRes (α : Type) where
  | panic : PRes α
  | ok : α → PRes α
  deriving DecidableEq, Repr

/-- Error values produced by the functions of `group.go`.  One constructor
per `fmt.Errorf` site (with the interpolated data as fields); `remote`
errors from the SDK are plain strings stored in the fields; the two
constructors marked as modelled come from code outside `src/`. -/
inductive GErr where
  /-- Modelled from the spec: decode failure of the identifier codec,
  naming the offending raw string (the codec source is not in `src/`). -/
  | parseSubResourceId (idString : String)
  /-- Go: "unable to parse Member ID: %v" (wraps the codec error). -/
  | parseMemberId (inner : GErr)
  /-- Go: "listing Azure AD Groups for filter %q: %+v". -/
  | listingGroups (filter : String) (remote : String)
  /-- Go: "nil values for AD Groups matching %q". -/
  | nilValuesForGroups (filter : String)
  /-- Go: "found no AD Groups matching %q". -/
  | noGroupsFound (filter : String)
  /-- Go: "found multiple AD Groups matching %q". -/
  | multipleGroupsFound (filter : String)
  /-- Go: "nil DisplayName for AD Groups matching %q". -/
  | nilDisplayName (filter : String)
  /-- Go: displayname mismatch error of `GroupGetByDisplayName`. -/
  | displayNameMismatch (filter got want : String)
  /-- Go: "during pagination of directory objects: %+v". -/
  | paginating (remote : String)
  /-- Go: "listing existing group members from Azure AD Group with ID %q: %+v". -/
  | listingGroupMembers (groupId : String) (remote : String)
  /-- Go: "getting objects IDs of group members for Azure AD Group with ID %q: %+v". -/
  | gettingObjectIDs (groupId : String) (inner : GErr)
  /-- Go: "adding group member %q to Azure AD Group with ID %q: %+v"
  (names the member and the group, wraps the last remote error). -/
  | addingGroupMember (member groupId : String) (remote : String)
  /-- Go: "waiting for group membership: %+v" (wraps the poller error). -/
  | waitingForGroupMembership (inner : GErr)
  /-- Go: "while adding members to Azure AD Group with ID %q: %+v". -/
  | whileAddingMembers (groupId : String) (inner : GErr)
  /-- Go: "adding group owner %q to Azure AD Group with ID %q: %+v". -/
  | addingGroupOwner (owner groupId : String) (remote : String)
  /-- Go: "while adding owners to Azure AD Group with ID %q: %+v". -/
  | whileAddingOwners (groupId : String) (inner : GErr)
  /-- Go: "unable to list Groups with filter %q: %+v" (`GroupFindByName`). -/
  | listingGroupsWithFilter (filter : String) (remote : String)
  /-- Go: duplicate-name warning of `GroupCheckNameAvailability`. -/
  | duplicateName (name objectId : String)
  /-- Modelled from the spec: the poller exhausted its budget without the
  target becoming visible; the error identifies the target. -/
  | pollTimeout (target : String)
  deriving DecidableEq, Repr

/-- `graphrbac.ADGroup` restricted to the fields `group.go` reads:
`DisplayName *string` and `ObjectID *string`. -/
structure ADGroup where
  displayName : Option String
  objectID : Option String
  deriving DecidableEq, Repr

/-- A `graphrbac.DirectoryObject` as consumed by `DirectoryObjectListToIDs`:
the SDK exposes it through the three cast methods `AsUser`, `AsADGroup`
and `AsServicePrincipal`, of which at most one succeeds; `other` stands
for any variant none of the three casts recognises.  Each recognised
variant carries its `ObjectID *string` field. -/
inductive DirObj where
  | user (objectID : Option String)
  | adGroup (objectID : Option String)
  | servicePrincipal (objectID : Option String)
  | other
  deriving DecidableEq, Repr

/-- The `AsUser` cast: a non-nil `*graphrbac.User` (just its ObjectID
field) exactly when the object is a user. -/
def DirObj.asUser : DirObj → Option (Option String)
  | .user objectID => some objectID
  | _ => none

/-- The `AsADGroup` cast. -/
def DirObj.asADGroup : DirObj → Option (Option String)
  | .adGroup objectID => some objectID
  | _ => none

/-- The `AsServicePrincipal` cast. -/
def DirObj.asServicePrincipal : DirObj → Option (Option String)
  | .servicePrincipal objectID => some objectID
  | _ => none

/-- One page stream of a `DirectoryObjectListResultIterator`: the sequence
of objects the iterator yields, each paired with the outcome of the
`NextWithContext` advance performed after processing it (`some e` = the
advance fails with remote error `e`). -/
abbrev DirPage := List (DirObj × Option String)

/-- The behaviour of the remote `graphrbac.GroupsClient` as seen by
`group.go`: each field gives the outcome of one SDK call.  Calls that a
single run performs repeatedly (`AddMember` retries, membership listings
re-done by the poller) additionally take the 0-based index of the
invocation. -/
structure GroupsClient where
  tenantID : String
  /-- Outcome of the i-th `AddMember(ctx, groupId, {URL: url})` call:
  `none` = success, `some e` = the call fails with remote error `e`. -/
  addMember : (groupId : String) → (url : String) → (i : Nat) → Option String
  /-- Outcome of the k-th `GetGroupMembersComplete(ctx, groupId)` call. -/
  getGroupMembers : (groupId : String) → (k : Nat) → Except String DirPage
  /-- Outcome of the single `AddOwner(ctx, groupId, {URL: url})` call. -/
  addOwner : (groupId : String) → (url : String) → Option String
  /-- Outcome of `ListComplete(ctx, filter)` followed by
  `resp.Response().Value`: remote error, or the possibly-nil (`none`)
  `*[]ADGroup` slice pointer. -/
  listComplete : (filter : String) → Except String (Option (List ADGroup))
  /-- Outcome of `List(ctx, filter)` followed by `resp.Values()`. -/
  list : (filter : String) → Except String (List ADGroup)

/-! ## Identifier codec

`ObjectSubResourceIdFrom` and `ParseObjectSubResourceId` live in a file of
the repository that is not part of `src/`; they are modelled from the
spec (§4.1, §6): a three-part composite string embedding
`objectId / kind / subId` positionally, with decode validating the kind
and rejecting malformed strings. -/

/-- Modelled from the spec: the composite sub-resource identifier value
(`ObjectSubResourceId` in the repository, source not included): the
object id, the relation kind (e.g. "member") and the sub-resource id. -/
structure ObjectSubResourceId where
  objectId : String
  subResourceType : String
  subId : String
  deriving DecidableEq, Repr

/-- Modelled from the spec: `ObjectSubResourceIdFrom` constructs the
composite identifier value from its three components. -/
def ObjectSubResourceIdFrom (objectId subResourceType subId : String) : ObjectSubResourceId :=
  ⟨objectId, subResourceType, subId⟩

/-- Modelled from the spec: the encoded string form of a composite
identifier — the three components joined positionally by "/". -/
def ObjectSubResourceId.stringForm (id : ObjectSubResourceId) : String :=
  id.objectId ++ "/" ++ id.subResourceType ++ "/" ++ id.subId

/-- Split a character list at every '/' (the separator of the composite
identifier format). -/
def splitOnSlash : List Char → List (List Char)
  | [] => [[]]
  | c :: cs =>
    if c = '/' then [] :: splitOnSlash cs
    else
      match splitOnSlash cs with
      | [] => [[c]]
      | p :: ps => (c :: p) :: ps

/-- Modelled from the spec: `ParseObjectSubResourceId` decodes the
composite string, validating that it has exactly three "/"-separated
parts and that the middle part equals the expected kind; malformed
inputs are rejected with a parse error naming the raw string. -/
def ParseObjectSubResourceId (idString expectedType : String) : Except GErr ObjectSubResourceId :=
  match splitOnSlash idString.data with
  | [objectId, ty, subId] =>
    if String.mk ty = expectedType then
      .ok ⟨String.mk objectId, String.mk ty, String.mk subId⟩
    else
      .error (.parseSubResourceId idString)
  | _ => .error (.parseSubResourceId idString)

/-- `GroupMemberId` of `group.go`: embeds the composite identifier and
repeats the group and member components. -/
structure GroupMemberId where
  objectSubResourceId : ObjectSubResourceId
  groupId : String
  memberId : String
  deriving DecidableEq, Repr

/-- `GroupMemberIdFrom` of `group.go`. -/
def GroupMemberIdFrom (groupId memberId : String) : GroupMemberId :=
  ⟨ObjectSubResourceIdFrom groupId "member" memberId, groupId, memberId⟩

/-- `ParseGroupMemberId` of `group.go`: decodes with expected kind
"member", wrapping any codec error. -/
def ParseGroupMemberId (idString : String) : Except GErr GroupMemberId :=
  match ParseObjectSubResourceId idString "member" with
  | .error e => .error (.parseMemberId e)
  | .ok id => .ok ⟨id, id.objectId, id.subId⟩

/-- A valid component identifier per the spec's data-model invariant:
non-empty and free of the "/" separator. -/
def ValidId (s : String) : Prop := s ≠ "" ∧ '/' ∉ s.data

instance (s : String) : Decidable (ValidId s) := by
  unfold ValidId; infer_instance

/-! ## Directory listing resolver -/

/-- One cast-and-append step of `DirectoryObjectListToIDs`:
`user, _ := v.AsXxx(); if user != nil { ids = append(ids, *user.ObjectID) }`.
Dereferencing a nil `ObjectID` panics. -/
def tryAppendId (cast : Option (Option String)) (ids : List String) : PRes (List String) :=
  match cast with
  | none => .ok ids
  | some objectID =>
    match objectID with
    | none => .panic
    | some s => .ok (ids ++ [s])

/-- The body of the iteration of `DirectoryObjectListToIDs` for one
directory object: the three casts are attempted in source order. -/
def appendObjectIds (v : DirObj) (ids : List String) : PRes (List String) :=
  match tryAppendId v.asUser ids with
  | .panic => .panic
  | .ok ids1 =>
    match tryAppendId v.asADGroup ids1 with
    | .panic => .panic
    | .ok ids2 => tryAppendId v.asServicePrincipal ids2

/-- The `for objects.NotDone()` loop of `DirectoryObjectListToIDs`,
carrying the accumulated `ids` slice; a failing `NextWithContext`
advance aborts with the pagination error. -/
def dirObjLoop : DirPage → List String → PRes (Except GErr (List String))
  | [], ids => .ok (.ok ids)
  | (v, nxt) :: rest, ids =>
    match appendObjectIds v ids with
    | .panic => .panic
    | .ok ids1 =>
      match nxt with
      | some e => .ok (.error (.paginating e))
      | none => dirObjLoop rest ids1

/-- `DirectoryObjectListToIDs` of `group.go`: flattens a paginated
sequence of directory objects to the object ids of the recognised
variants, skipping unrecognised ones. -/
def DirectoryObjectListToIDs (objects : DirPage) : PRes (Except GErr (List String)) :=
  dirObjLoop objects []

/-- `GroupAllMembers` of `group.go`.  `k` is the index of this listing
invocation (the poller calls it repeatedly; the client's behaviour may
differ per invocation). -/
def GroupAllMembers (client : GroupsClient) (groupId : String) (k : Nat) :
    PRes (Except GErr (List String)) :=
  match client.getGroupMembers groupId k with
  | .error e => .ok (.error (.listingGroupMembers groupId e))
  | .ok members =>
    match DirectoryObjectListToIDs members with
    | .panic => .panic
    | .ok (.error e) => .ok (.error (.gettingObjectIDs groupId e))
    | .ok (.ok existingMembers) => .ok (.ok existingMembers)

/-! ## Eventual-consistency poller

`WaitForListAdd` lives in a file of the repository that is not part of
`src/`; it is modelled from the spec (§4.4): repeatedly invoke the
producer; a producer error is surfaced immediately; if the produced list
contains the target, return it at once; otherwise sleep a fixed delay and
retry, and after the attempt budget is exhausted return a timeout error
identifying the target.  The budget is an unspecified positive constant of
the missing source; it is a parameter here. -/

/-- Modelled from the spec: the polling loop of `WaitForListAdd` with
`budget` producer invocations remaining, the next one having index `k`. -/
def waitForListAddFrom (target : String) (produce : Nat → PRes (Except GErr (List String))) :
    Nat → Nat → PRes (Except GErr (List String))
  | 0, _ => .ok (.error (.pollTimeout target))
  | budget + 1, k =>
    match produce k with
    | .panic => .panic
    | .ok (.error e) => .ok (.error e)
    | .ok (.ok current) =>
      if target ∈ current then .ok (.ok current)
      else waitForListAddFrom target produce budget (k + 1)

/-- Modelled from the spec: `WaitForListAdd` (§4.4) — poll the producer
until `target` is contained in the produced list or the budget runs out. -/
def WaitForListAdd (budget : Nat) (target : String)
    (produce : Nat → PRes (Except GErr (List String))) : PRes (Except GErr (List String)) :=
  waitForListAddFrom target produce budget 0

/-! ## Membership mutator -/

/-- The `attempts := 10` constant of `GroupAddMember`. -/
def attemptsCap : Nat := 10

/-- The seconds slept between two retries of the add call
(`time.Sleep(time.Second * 2)`). -/
def retrySleepSeconds : Nat := 2

/-- The member/owner reference URL built by `GroupAddMember` and
`GroupAddOwner`:
`fmt.Sprintf("https://graph.windows.net/%s/directoryObjects/%s", client.TenantID, id)`. -/
def directoryObjectGraphURL (tenantID objectId : String) : String :=
  "https://graph.windows.net/" ++ tenantID ++ "/directoryObjects/" ++ objectId

/-- The retry loop `for i := 0; i <= attempts; i++` of `GroupAddMember`,
counted down: the argument `j` is the number of loop iterations that may
still follow the current one, so the Go loop index is `i = attempts - j`
and the loop is entered with `j = attempts`.  Returns
`(AddMember calls made, sleeps performed, outcome)`, where the outcome is
`none` when some call succeeded (the `break`) and `some e` when iteration
`i == attempts` still failed with remote error `e` (the `return` of the
wrapped error happens in `GroupAddMember` below). -/
def addRetryLoop (f : Nat → Option String) (attempts : Nat) : Nat → Nat × Nat × Option String
  | 0 =>
    match f attempts with
    | none => (1, 0, none)
    | some e => (1, 0, some e)
  | j + 1 =>
    match f (attempts - (j + 1)) with
    | none => (1, 0, none)
    | some _ =>
      let r := addRetryLoop f attempts j
      (r.1 + 1, r.2.1 + 1, r.2.2)

/-- Observable trace of one `GroupAddMember` run: how many remote
`AddMember` calls were made, how many 2-second sleeps were performed,
whether the poller was invoked, and the returned value. -/
structure AddMemberTrace where
  addCalls : Nat
  sleeps : Nat
  pollerInvocations : Nat
  result : PRes (Option GErr)
  deriving DecidableEq, Repr

/-- `GroupAddMember` of `group.go`: build the member URL, run the retry
loop around `client.AddMember` (up to `attemptsCap` retries, sleeping
between attempts), return the wrapped last error on exhaustion; after a
successful add, block on `WaitForListAdd` with the member as target and
`GroupAllMembers` of the group as producer, wrap a poll error, and return
nil only once the poll succeeds.  `pollBudget` is the poller's attempt
budget (a constant of the poller's missing source, see `WaitForListAdd`). -/
def GroupAddMember (client : GroupsClient) (pollBudget : Nat) (groupId member : String) :
    AddMemberTrace :=
  let memberGraphURL := directoryObjectGraphURL client.tenantID member
  let r := addRetryLoop (client.addMember groupId memberGraphURL) attemptsCap attemptsCap
  match r.2.2 with
  | some e => ⟨r.1, r.2.1, 0, .ok (some (.addingGroupMember member groupId e))⟩
  | none =>
    match WaitForListAdd pollBudget member (fun k => GroupAllMembers client groupId k) with
    | .panic => ⟨r.1, r.2.1, 1, .panic⟩
    | .ok (.error e) => ⟨r.1, r.2.1, 1, .ok (some (.waitingForGroupMembership e))⟩
    | .ok (.ok _) => ⟨r.1, r.2.1, 1, .ok none⟩

/-- `GroupAddMembers` of `group.go`: apply `GroupAddMember` to the members
in list order, aborting on the first failure with a wrapped error naming
the group.  The first component of the result lists, in order, the
members on which `GroupAddMember` was actually invoked. -/
def GroupAddMembers (client : GroupsClient) (pollBudget : Nat) (groupId : String) :
    List String → List String × PRes (Option GErr)
  | [] => ([], .ok none)
  | memberUuid :: rest =>
    match (GroupAddMember client pollBudget groupId memberUuid).result with
    | .panic => ([memberUuid], .panic)
    | .ok (some e) => ([memberUuid], .ok (some (.whileAddingMembers groupId e)))
    | .ok none =>
      let r := GroupAddMembers client pollBudget groupId rest
      (memberUuid :: r.1, r.2)

/-- Observable trace of one `GroupAddOwner` run, mirroring
`AddMemberTrace` so the two can be compared. -/
structure AddOwnerTrace where
  addOwnerCalls : Nat
  sleeps : Nat
  pollerInvocations : Nat
  result : Option GErr
  deriving DecidableEq, Repr

/-- `GroupAddOwner` of `group.go`: build the owner URL and issue a single
`client.AddOwner` call — no retry loop, no sleeping, no poll for
convergence; a failure is returned wrapped, a success returns nil at
once. -/
def GroupAddOwner (client : GroupsClient) (groupId owner : String) : AddOwnerTrace :=
  let ownerGraphURL := directoryObjectGraphURL client.tenantID owner
  match client.addOwner groupId ownerGraphURL with
  | some e => ⟨1, 0, 0, some (.addingGroupOwner owner groupId e)⟩
  | none => ⟨1, 0, 0, none⟩

/-- `GroupAddOwners` of `group.go`: sequential application of
`GroupAddOwner`, aborting on the first failure with a wrapped error
naming the group. -/
def GroupAddOwners (client : GroupsClient) (groupId : String) :
    List String → List String × Option GErr
  | [] => ([], none)
  | ownerUuid :: rest =>
    match (GroupAddOwner client groupId ownerUuid).result with
    | some e => ([ownerUuid], some (.whileAddingOwners groupId e))
    | none =>
      let r := GroupAddOwners client groupId rest
      (ownerUuid :: r.1, r.2)

/-! ## Name lookup -/

/-- The exact-match display-name filter string
`fmt.Sprintf("displayName eq '%s'", name)` built by both
`GroupGetByDisplayName` and `GroupFindByName`. -/
def displayNameFilter (name : String) : String :=
  "displayName eq '" ++ name ++ "'"

/-- `GroupGetByDisplayName` of `group.go`: server-side filtered listing;
errors on a remote failure, a nil values pointer, zero results, or more
than two results; otherwise inspects the first returned group, erroring
on a nil display name or an exact-equality mismatch with the query. -/
def GroupGetByDisplayName (client : GroupsClient) (displayName : String) :
    Except GErr ADGroup :=
  let filter := displayNameFilter displayName
  match client.listComplete filter with
  | .error e => .error (.listingGroups filter e)
  | .ok values? =>
    match values? with
    | none => .error (.nilValuesForGroups filter)
    | some values =>
      match values with
      | [] => .error (.noGroupsFound filter)
      | group :: rest =>
        if (group :: rest).length > 2 then .error (.multipleGroupsFound filter)
        else
          match group.displayName with
          | none => .error (.nilDisplayName filter)
          | some d =>
            if d ≠ displayName then
              .error (.displayNameMismatch filter d displayName)
            else .ok group

/-- The `for _, group := range resp.Values()` loop of `GroupFindByName`:
returns the first group whose dereferenced display name equals `name`;
the dereference `*group.DisplayName` panics when the field is nil. -/
def findByNameLoop (name : String) : List ADGroup → PRes (Except GErr (Option ADGroup))
  | [] => .ok (.ok none)
  | group :: rest =>
    match group.displayName with
    | none => .panic
    | some d => if d = name then .ok (.ok (some group)) else findByNameLoop name rest

/-- `GroupFindByName` of `group.go`: client-side exact re-validation over
the page returned for the server-side filter; absent result (`none`
group, nil error) when no entry matches. -/
def GroupFindByName (client : GroupsClient) (name : String) :
    PRes (Except GErr (Option ADGroup)) :=
  let nameFilter := displayNameFilter name
  match client.list nameFilter with
  | .error e => .ok (.error (.listingGroupsWithFilter nameFilter e))
  | .ok groups => findByNameLoop name groups

/-- `GroupCheckNameAvailability` of `group.go`: fails with a
duplicate-name error (carrying the found object's id, dereferenced from
its possibly-nil `ObjectID`) when `GroupFindByName` finds a match. -/
def GroupCheckNameAvailability (client : GroupsClient) (name : String) :
    PRes (Option GErr) :=
  match GroupFindByName client name with
  | .panic => .panic
  | .ok (.error e) => .ok (some e)
  | .ok (.ok none) => .ok none
  | .ok (.ok (some existingGroup)) =>
    match existingGroup.objectID with
    | none => .panic
    | some oid => .ok (some (.duplicateName name oid))

/-! ## Specification-side definitions (for refinement statements) -/

/-- Written from the spec's words (§4.2), for comparison with
`DirectoryObjectListToIDs`: the identifiers of exactly the recognised
elements of a sequence, in the original order, with nothing emitted for
an unrecognised element. -/
def specRecognizedIds : List DirObj → List String
  | [] => []
  | .user (some s) :: rest => s :: specRecognizedIds rest
  | .adGroup (some s) :: rest => s :: specRecognizedIds rest
  | .servicePrincipal (some s) :: rest => s :: specRecognizedIds rest
  | _ :: rest => specRecognizedIds rest

/-- A directory object whose recognised variant (if any) carries a
present identifier. -/
def DirObj.idPresent : DirObj → Prop
  | .user none => False
  | .adGroup none => False
  | .servicePrincipal none => False
  | _ => True

instance (v : DirObj) : Decidable v.idPresent := by
  unfold DirObj.idPresent
  cases v with
  | user o => cases o <;> infer_instance
  | adGroup o => cases o <;> infer_instance
  | servicePrincipal o => cases o <;> infer_instance
  | other => infer_instance

/-! ## Lemmas about the identifier codec -/

theorem string_data_append (a b : String) : (a ++ b).data = a.data ++ b.data := rfl

theorem splitOnSlash_ne_nil (l : List Char) : splitOnSlash l ≠ [] := by
  cases l with
  | nil => simp [splitOnSlash]
  | cons c cs =>
    by_cases h : c = '/'
    · simp [splitOnSlash, h]
    · simp only [splitOnSlash, if_neg h]
      cases splitOnSlash cs <;> simp

theorem splitOnSlash_of_not_mem (a : List Char) (h : '/' ∉ a) : splitOnSlash a = [a] := by
  induction a with
  | nil => rfl
  | cons c cs ih =>
    have hc : c ≠ '/' := fun hc => h (hc ▸ List.mem_cons_self c cs)
    have hcs : '/' ∉ cs := fun hm => h (List.mem_cons_of_mem c hm)
    simp only [splitOnSlash, if_neg hc, ih hcs]

theorem splitOnSlash_append (a : List Char) (h : '/' ∉ a) (r : List Char) :
    splitOnSlash (a ++ '/' :: r) = a :: splitOnSlash r := by
  induction a with
  | nil => simp [splitOnSlash]
  | cons c cs ih =>
    have hc : c ≠ '/' := fun hc => h (hc ▸ List.mem_cons_self c cs)
    have hcs : '/' ∉ cs := fun hm => h (List.mem_cons_of_mem c hm)
    simp only [List.cons_append, splitOnSlash, if_neg hc, List.append_eq, ih hcs]

theorem stringForm_data (g m : String) :
    ((GroupMemberIdFrom g m).objectSubResourceId.stringForm).data =
      g.data ++ '/' :: ("member".data ++ '/' :: m.data) := by
  simp [GroupMemberIdFrom, ObjectSubResourceIdFrom, ObjectSubResourceId.stringForm,
    string_data_append]

/-- C3: for every pair of valid identifiers, `ParseGroupMemberId` applied
to the string form of `GroupMemberIdFrom groupId memberId` succeeds and
returns a `GroupMemberId` whose group component equals `groupId` and
whose member component equals `memberId` — decoding is the exact inverse
of encoding. -/
theorem groupMemberId_roundtrip (groupId memberId : String)
    (hg : ValidId groupId) (hm : ValidId memberId) :
    ParseGroupMemberId ((GroupMemberIdFrom groupId memberId).objectSubResourceId.stringForm) =
      .ok (GroupMemberIdFrom groupId memberId) ∧
    (GroupMemberIdFrom groupId memberId).groupId = groupId ∧
    (GroupMemberIdFrom groupId memberId).memberId = memberId := by
  refine ⟨?_, rfl, rfl⟩
  have hsplit :
      splitOnSlash ((GroupMemberIdFrom groupId memberId).objectSubResourceId.stringForm).data
        = [groupId.data, "member".data, memberId.data] := by
    rw [stringForm_data, splitOnSlash_append _ hg.2, splitOnSlash_append _ (by decide),
      splitOnSlash_of_not_mem _ hm.2]
  simp only [ParseGroupMemberId, ParseObjectSubResourceId, hsplit]
  rfl

/-- Witness for C3 at a concrete pair of identifiers. -/
theorem groupMemberId_roundtrip_witness :
    ValidId "g0" ∧ ValidId "m0" ∧
    ParseGroupMemberId ((GroupMemberIdFrom "g0" "m0").objectSubResourceId.stringForm) =
      .ok (GroupMemberIdFrom "g0" "m0") :=
  ⟨by decide, by decide, (groupMemberId_roundtrip "g0" "m0" (by decide) (by decide)).1⟩

/-! ## Lemmas about the retry loop and the poller -/

theorem addRetryLoop_all_fail (f : Nat → Option String) (attempts : Nat) :
    ∀ j, (∀ d, d ≤ j → (f (attempts - d)).isSome) →
    addRetryLoop f attempts j = (j + 1, j, f attempts) := by
  intro j
  induction j with
  | zero =>
    intro h
    rcases Option.isSome_iff_exists.mp (by simpa using h 0 (Nat.le_refl 0)) with ⟨e, he⟩
    simp [addRetryLoop, he]
  | succ j ih =>
    intro h
    rcases Option.isSome_iff_exists.mp (h (j + 1) (Nat.le_refl _)) with ⟨e, he⟩
    have hrec := ih (fun d hd => h d (Nat.le_succ_of_le hd))
    simp [addRetryLoop, he, hrec]

theorem addRetryLoop_first_success (f : Nat → Option String) (attempts : Nat) :
    ∀ t j, j ≤ attempts → t ≤ j →
      f (attempts - j + t) = none →
      (∀ u, u < t → (f (attempts - j + u)).isSome) →
      addRetryLoop f attempts j = (t + 1, t, none) := by
  intro t
  induction t with
  | zero =>
    intro j hj ht h0 hu
    cases j with
    | zero =>
      simp only [Nat.sub_zero, Nat.add_zero] at h0
      simp [addRetryLoop, h0]
    | succ j' =>
      simp only [Nat.add_zero] at h0
      simp [addRetryLoop, h0]
  | succ t ih =>
    intro j hj ht hsucc hu
    cases j with
    | zero => omega
    | succ j' =>
      have h0 : (f (attempts - (j' + 1))).isSome := by
        simpa using hu 0 (Nat.succ_pos t)
      rcases Option.isSome_iff_exists.mp h0 with ⟨e, he⟩
      have hidx : attempts - j' + t = attempts - (j' + 1) + (t + 1) := by omega
      have ih' := ih j' (by omega) (by omega) (by rw [hidx]; exact hsucc)
        (fun u hu' => by
          have h1 := hu (u + 1) (by omega)
          have hidx' : attempts - (j' + 1) + (u + 1) = attempts - j' + u := by omega
          rwa [hidx'] at h1)
      simp [addRetryLoop, he, ih']

theorem exists_first_success (f : Nat → Option String) (i : Nat) (h : f i = none) :
    ∃ k, k ≤ i ∧ f k = none ∧ ∀ u, u < k → (f u).isSome := by
  have hP : ∃ n, f n = none := ⟨i, h⟩
  refine ⟨Nat.find hP, Nat.find_min' hP h, Nat.find_spec hP, fun u hu => ?_⟩
  exact Option.ne_none_iff_isSome.mp (Nat.find_min hP hu)

theorem waitForListAddFrom_ok_mem (target : String)
    (produce : Nat → PRes (Except GErr (List String))) :
    ∀ budget k l, waitForListAddFrom target produce budget k = .ok (.ok l) → target ∈ l := by
  intro budget
  induction budget with
  | zero =>
    intro k l h
    simp [waitForListAddFrom] at h
  | succ n ih =>
    intro k l h
    simp only [waitForListAddFrom] at h
    split at h
    · simp at h
    · simp at h
    · split at h
      · rename_i current heq hm
        simp only [PRes.ok.injEq, Except.ok.injEq] at h
        rwa [← h]
      · exact ih (k + 1) l h

theorem waitForListAdd_ok_mem (budget : Nat) (target : String)
    (produce : Nat → PRes (Except GErr (List String))) (l : List String)
    (h : WaitForListAdd budget target produce = .ok (.ok l)) : target ∈ l :=
  waitForListAddFrom_ok_mem target produce budget 0 l h

/-! ## Sample clients for concrete evaluations -/

/-- A client whose `AddMember` call fails on every invocation. -/
def allFailClient : GroupsClient :=
  ⟨"tenant0", fun _ _ _ => some "transient remote failure", fun _ _ => .ok [],
    fun _ _ => none, fun _ => .ok (some []), fun _ => .ok []⟩

/-- A client whose `AddMember` call fails on the first three attempts and
succeeds on the fourth, and whose membership listing shows member "m0"
at once. -/
def failThriceClient : GroupsClient :=
  ⟨"tenant0", fun _ _ i => if i < 3 then some "transient remote failure" else none,
    fun _ _ => .ok [(.user (some "m0"), none)],
    fun _ _ => none, fun _ => .ok (some []), fun _ => .ok []⟩

/-! ## The claims about `GroupAddMember` -/

/-- C1: when every `AddMember` invocation fails, `GroupAddMember` makes
exactly 11 calls with a 2-second sleep between consecutive attempts (10
sleeps), and returns an error naming the member and the group and
wrapping the last underlying remote error; and when the first successful
invocation is attempt `k` (1-indexed, within the cap of 11), the loop
stops after `k` calls having slept exactly `k - 1` times. -/
theorem groupAddMember_retry_behavior :
    (∀ (client : GroupsClient) (pollBudget : Nat) (g m : String),
      (∀ i, (client.addMember g (directoryObjectGraphURL client.tenantID m) i).isSome) →
      ∃ e, client.addMember g (directoryObjectGraphURL client.tenantID m) attemptsCap = some e ∧
        GroupAddMember client pollBudget g m =
          ⟨11, 10, 0, .ok (some (.addingGroupMember m g e))⟩) ∧
    (∀ (client : GroupsClient) (pollBudget : Nat) (g m : String) (k : Nat),
      1 ≤ k → k ≤ 11 →
      client.addMember g (directoryObjectGraphURL client.tenantID m) (k - 1) = none →
      (∀ u, u < k - 1 →
        (client.addMember g (directoryObjectGraphURL client.tenantID m) u).isSome) →
      (GroupAddMember client pollBudget g m).addCalls = k ∧
      (GroupAddMember client pollBudget g m).sleeps = k - 1) := by
  constructor
  · intro client pollBudget g m hfail
    rcases Option.isSome_iff_exists.mp (hfail attemptsCap) with ⟨e, he⟩
    refine ⟨e, he, ?_⟩
    have hloop := addRetryLoop_all_fail
      (client.addMember g (directoryObjectGraphURL client.tenantID m)) attemptsCap attemptsCap
      (fun d _ => hfail (attemptsCap - d))
    simp only [attemptsCap] at hloop he
    simp [GroupAddMember, attemptsCap, hloop, he]
  · intro client pollBudget g m k hk1 hk11 hsucc hbefore
    have hcap : k - 1 ≤ attemptsCap := by unfold attemptsCap; omega
    have hloop := addRetryLoop_first_success
      (client.addMember g (directoryObjectGraphURL client.tenantID m)) attemptsCap (k - 1)
      attemptsCap (Nat.le_refl _) hcap (by simpa using hsucc)
      (fun u hu => by simpa using hbefore u hu)
    have hk : k - 1 + 1 = k := by omega
    rw [hk] at hloop
    cases hW : WaitForListAdd pollBudget m (fun j => GroupAllMembers client g j) with
    | panic => simp [GroupAddMember, hloop, hW]
    | ok v =>
      cases v with
      | error e => simp [GroupAddMember, hloop, hW]
      | ok l => simp [GroupAddMember, hloop, hW]

/-- Witness for C1: under total failure the concrete run makes 11 calls,
10 sleeps and returns the wrapped error; with success on attempt 4 of 11
the concrete run makes 4 calls and sleeps exactly 3 times. -/
theorem groupAddMember_retry_behavior_witness :
    GroupAddMember allFailClient 1 "g0" "m0" =
      ⟨11, 10, 0, .ok (some (.addingGroupMember "m0" "g0" "transient remote failure"))⟩ ∧
    (GroupAddMember failThriceClient 1 "g0" "m0").addCalls = 4 ∧
    (GroupAddMember failThriceClient 1 "g0" "m0").sleeps = 3 := by
  refine ⟨?_, ?_⟩
  · obtain ⟨e, he, hres⟩ :=
      groupAddMember_retry_behavior.1 allFailClient 1 "g0" "m0" (fun i => rfl)
    have he' : e = "transient remote failure" := by
      simpa [allFailClient] using he.symm
    rw [hres, he']
  · exact groupAddMember_retry_behavior.2 failThriceClient 1 "g0" "m0" 4
      (by omega) (by omega) (by decide) (by decide)

/-- C2: whenever the remote add call inside `GroupAddMember` succeeds on
some attempt within the cap, the function does not return success
directly: it invokes `WaitForListAdd` with the member as target and the
re-listing producer `GroupAllMembers` of the group, returns a wrapped
error if that poll errors, and returns nil only when the poll observed
the member in the listed membership. -/
theorem groupAddMember_polls_after_success (client : GroupsClient) (pollBudget : Nat)
    (g m : String)
    (hsucc : ∃ i, i ≤ attemptsCap ∧
      client.addMember g (directoryObjectGraphURL client.tenantID m) i = none) :
    (GroupAddMember client pollBudget g m).pollerInvocations = 1 ∧
    (GroupAddMember client pollBudget g m).result =
      (match WaitForListAdd pollBudget m (fun k => GroupAllMembers client g k) with
       | .panic => .panic
       | .ok (.error e) => .ok (some (.waitingForGroupMembership e))
       | .ok (.ok _) => .ok none) ∧
    ((GroupAddMember client pollBudget g m).result = .ok none →
      ∃ l, WaitForListAdd pollBudget m (fun k => GroupAllMembers client g k) = .ok (.ok l) ∧
        m ∈ l) := by
  obtain ⟨i, hi, hnone⟩ := hsucc
  obtain ⟨k0, hk0i, hk0, hmin⟩ :=
    exists_first_success (client.addMember g (directoryObjectGraphURL client.tenantID m)) i hnone
  have hloop := addRetryLoop_first_success
    (client.addMember g (directoryObjectGraphURL client.tenantID m)) attemptsCap k0
    attemptsCap (Nat.le_refl _) (Nat.le_trans hk0i hi) (by simpa using hk0)
    (fun u hu => by simpa using hmin u hu)
  cases hW : WaitForListAdd pollBudget m (fun k => GroupAllMembers client g k) with
  | panic => simp [GroupAddMember, hloop, hW]
  | ok v =>
    cases v with
    | error e => simp [GroupAddMember, hloop, hW]
    | ok l =>
      refine ⟨by simp [GroupAddMember, hloop, hW], by simp [GroupAddMember, hloop, hW], ?_⟩
      intro _
      exact ⟨l, rfl, waitForListAdd_ok_mem pollBudget m _ l hW⟩

/-- Witness for C2 at a concrete client: the add succeeds at once, the
poll sees "m0" in the first listing, and the run returns nil with one
poller invocation. -/
theorem groupAddMember_polls_after_success_witness :
    (GroupAddMember failThriceClient 2 "g0" "m0").pollerInvocations = 1 ∧
    ((GroupAddMember failThriceClient 2 "g0" "m0").result = .ok none →
      ∃ l, WaitForListAdd 2 "m0" (fun k => GroupAllMembers failThriceClient "g0" k) =
        .ok (.ok l) ∧ "m0" ∈ l) := by
  have h := groupAddMember_polls_after_success failThriceClient 2 "g0" "m0"
    ⟨3, by decide, by decide⟩
  exact ⟨h.1, h.2.2⟩

/-! ## The directory listing resolver claims -/

theorem specRecognizedIds_cons (v : DirObj) (l : List DirObj) :
    specRecognizedIds (v :: l) = specRecognizedIds [v] ++ specRecognizedIds l := by
  cases v with
  | user o => cases o <;> simp [specRecognizedIds]
  | adGroup o => cases o <;> simp [specRecognizedIds]
  | servicePrincipal o => cases o <;> simp [specRecognizedIds]
  | other => simp [specRecognizedIds]

theorem appendObjectIds_idPresent (v : DirObj) (hv : v.idPresent) (ids : List String) :
    appendObjectIds v ids = .ok (ids ++ specRecognizedIds [v]) := by
  cases v with
  | user o =>
    cases o with
    | none => exact absurd hv (by simp [DirObj.idPresent])
    | some s =>
      simp [appendObjectIds, tryAppendId, DirObj.asUser, DirObj.asADGroup,
        DirObj.asServicePrincipal, specRecognizedIds]
  | adGroup o =>
    cases o with
    | none => exact absurd hv (by simp [DirObj.idPresent])
    | some s =>
      simp [appendObjectIds, tryAppendId, DirObj.asUser, DirObj.asADGroup,
        DirObj.asServicePrincipal, specRecognizedIds]
  | servicePrincipal o =>
    cases o with
    | none => exact absurd hv (by simp [DirObj.idPresent])
    | some s =>
      simp [appendObjectIds, tryAppendId, DirObj.asUser, DirObj.asADGroup,
        DirObj.asServicePrincipal, specRecognizedIds]
  | other =>
    simp [appendObjectIds, tryAppendId, DirObj.asUser, DirObj.asADGroup,
      DirObj.asServicePrincipal, specRecognizedIds]

theorem dirObjLoop_spec (objs : DirPage) :
    (∀ p ∈ objs, p.2 = none) → (∀ p ∈ objs, (p.1).idPresent) →
    ∀ acc, dirObjLoop objs acc = .ok (.ok (acc ++ specRecognizedIds (objs.map Prod.fst))) := by
  induction objs with
  | nil => intro _ _ acc; simp [dirObjLoop, specRecognizedIds]
  | cons p rest ih =>
    intro hn hp acc
    obtain ⟨v, nxt⟩ := p
    have hv : v.idPresent := hp (v, nxt) (List.mem_cons_self _ _)
    have hnxt : nxt = none := hn (v, nxt) (List.mem_cons_self _ _)
    subst hnxt
    simp only [dirObjLoop, appendObjectIds_idPresent v hv acc]
    rw [ih (fun q hq => hn q (List.mem_cons_of_mem _ hq))
      (fun q hq => hp q (List.mem_cons_of_mem _ hq))]
    simp only [List.map_cons]
    rw [specRecognizedIds_cons v (List.map Prod.fst rest)]
    simp [List.append_assoc]

/-- C7: on a paginated sequence in which every element is (by the shape
of `DirObj`) recognised as exactly one of user / group /
service-principal or as none of the three, every recognised element
carries a present identifier, and pagination never fails,
`DirectoryObjectListToIDs` returns exactly the identifiers of the
recognised elements in the original order, emitting nothing for an
unrecognised element (`specRecognizedIds` is the spec-side description
of that output). -/
theorem directoryObjectListToIDs_recognized (objects : DirPage)
    (hpage : ∀ p ∈ objects, p.2 = none)
    (hids : ∀ p ∈ objects, (p.1).idPresent) :
    DirectoryObjectListToIDs objects =
      .ok (.ok (specRecognizedIds (objects.map Prod.fst))) := by
  have h := dirObjLoop_spec objects hpage hids []
  simpa [DirectoryObjectListToIDs] using h

/-- Witness for C7: one user, one group, one service-principal and one
unrecognised element yield exactly the three recognised identifiers in
order. -/
theorem directoryObjectListToIDs_recognized_witness :
    DirectoryObjectListToIDs
        [(.user (some "u1"), none), (.adGroup (some "g1"), none),
         (.servicePrincipal (some "s1"), none), (.other, none)] =
      .ok (.ok ["u1", "g1", "s1"]) := by
  rw [directoryObjectListToIDs_recognized
    [(.user (some "u1"), none), (.adGroup (some "g1"), none),
     (.servicePrincipal (some "s1"), none), (.other, none)]
    (by decide) (by decide)]
  rfl

/-! ## The panic claim -/

/-- A client whose group listing returns one group whose DisplayName
pointer is nil. -/
def nilNameClient : GroupsClient :=
  ⟨"tenant0", fun _ _ _ => none, fun _ _ => .ok [], fun _ _ => none,
    fun _ => .ok (some []), fun _ => .ok [⟨none, some "oid0"⟩]⟩

/-- C4 fails on the code: `GroupFindByName` dereferences
`*group.DisplayName` without a nil check and panics when a returned
group's DisplayName is absent, and `DirectoryObjectListToIDs`
dereferences `*user.ObjectID` without a nil check and panics when a
recognised variant's ObjectID is absent — instead of returning an error
value as the claim (and the spec's no-panics rule) requires. -/
theorem groupFindByName_and_listToIDs_panic :
    GroupFindByName nilNameClient "g0" = .panic ∧
    DirectoryObjectListToIDs [(.user none, none)] = .panic := by
  exact ⟨rfl, rfl⟩

/-! ## The find-by-name claims -/

theorem findByNameLoop_no_match (name : String) (groups : List ADGroup)
    (h : ∀ g ∈ groups, ∃ d, g.displayName = some d ∧ d ≠ name) :
    findByNameLoop name groups = .ok (.ok none) := by
  induction groups with
  | nil => rfl
  | cons g rest ih =>
    obtain ⟨d, hd, hne⟩ := h g (List.mem_cons_self _ _)
    simp only [findByNameLoop, hd, if_neg hne]
    exact ih (fun q hq => h q (List.mem_cons_of_mem _ hq))

theorem findByNameLoop_first_match (name : String) (g : ADGroup)
    (hd : g.displayName = some name) :
    ∀ pre post, (∀ g' ∈ pre, ∃ d, g'.displayName = some d ∧ d ≠ name) →
    findByNameLoop name (pre ++ g :: post) = .ok (.ok (some g)) := by
  intro pre
  induction pre with
  | nil =>
    intro post _
    simp [findByNameLoop, hd]
  | cons g0 rest ih =>
    intro post h
    obtain ⟨d, hd0, hne⟩ := h g0 (List.mem_cons_self _ _)
    simp only [List.cons_append, findByNameLoop, hd0, if_neg hne]
    exact ih post (fun q hq => h q (List.mem_cons_of_mem _ hq))

/-- C8: over the page returned for the filter, when every group carries a
display name and none of the display names equals the query exactly,
`GroupFindByName` returns an absent result (nil group, nil error) rather
than the first entry; and when some group's display name equals the
query exactly, it returns the first such group in page order. -/
theorem groupFindByName_exact_match (client : GroupsClient) (name : String)
    (groups : List ADGroup)
    (hlist : client.list (displayNameFilter name) = .ok groups) :
    ((∀ g ∈ groups, ∃ d, g.displayName = some d ∧ d ≠ name) →
      GroupFindByName client name = .ok (.ok none)) ∧
    (∀ pre g post, groups = pre ++ g :: post → g.displayName = some name →
      (∀ g' ∈ pre, ∃ d, g'.displayName = some d ∧ d ≠ name) →
      GroupFindByName client name = .ok (.ok (some g))) := by
  constructor
  · intro h
    simp only [GroupFindByName, hlist]
    exact findByNameLoop_no_match name groups h
  · intro pre g post hsplit hd hpre
    simp only [GroupFindByName, hlist, hsplit]
    exact findByNameLoop_first_match name g hd pre post hpre

/-- A client listing a single group whose display name differs from the
query "foo" only by case. -/
def caseDiffClient : GroupsClient :=
  ⟨"tenant0", fun _ _ _ => none, fun _ _ => .ok [], fun _ _ => none,
    fun _ => .ok (some []), fun _ => .ok [⟨some "Foo", some "1"⟩]⟩

/-- A client listing a case-different group first and an exactly matching
group second. -/
def matchSecondClient : GroupsClient :=
  ⟨"tenant0", fun _ _ _ => none, fun _ _ => .ok [], fun _ _ => none,
    fun _ => .ok (some []),
    fun _ => .ok [⟨some "Foo", some "1"⟩, ⟨some "foo", some "2"⟩]⟩

/-- Witness for C8: a case-different page yields "no match", and an exact
match in second position is the value returned. -/
theorem groupFindByName_exact_match_witness :
    GroupFindByName caseDiffClient "foo" = .ok (.ok none) ∧
    GroupFindByName matchSecondClient "foo" = .ok (.ok (some ⟨some "foo", some "2"⟩)) := by
  constructor
  · refine (groupFindByName_exact_match caseDiffClient "foo" [⟨some "Foo", some "1"⟩] rfl).1 ?_
    intro g hg
    simp only [List.mem_singleton] at hg
    subst hg
    exact ⟨"Foo", rfl, by decide⟩
  · refine (groupFindByName_exact_match matchSecondClient "foo"
      [⟨some "Foo", some "1"⟩, ⟨some "foo", some "2"⟩] rfl).2
      [⟨some "Foo", some "1"⟩] ⟨some "foo", some "2"⟩ [] rfl rfl ?_
    intro g hg
    simp only [List.mem_singleton] at hg
    subst hg
    exact ⟨"Foo", rfl, by decide⟩

/-! ## The strict get-by-display-name claims -/

/-- C5: `GroupGetByDisplayName` errors when the server-side filtered
listing yields zero results, errors when it yields more than two,
errors when the first returned group's display name does not exactly
equal the query, and returns a group without error only when the listing
yields one or two results whose first element's display name exactly
equals the query. -/
theorem groupGetByDisplayName_strict (client : GroupsClient) (name : String) :
    (client.listComplete (displayNameFilter name) = .ok (some []) →
      GroupGetByDisplayName client name = .error (.noGroupsFound (displayNameFilter name))) ∧
    (∀ values, client.listComplete (displayNameFilter name) = .ok (some values) →
      values.length > 2 →
      GroupGetByDisplayName client name =
        .error (.multipleGroupsFound (displayNameFilter name))) ∧
    (∀ g rest d, client.listComplete (displayNameFilter name) = .ok (some (g :: rest)) →
      (g :: rest).length ≤ 2 → g.displayName = some d → d ≠ name →
      GroupGetByDisplayName client name =
        .error (.displayNameMismatch (displayNameFilter name) d name)) ∧
    (∀ g, GroupGetByDisplayName client name = .ok g →
      ∃ values, client.listComplete (displayNameFilter name) = .ok (some values) ∧
        (values.length = 1 ∨ values.length = 2) ∧ values.head? = some g ∧
        g.displayName = some name) := by
  refine ⟨?_, ?_, ?_, ?_⟩
  · intro h
    simp [GroupGetByDisplayName, h]
  · intro values h hlen
    cases values with
    | nil => simp at hlen
    | cons g rest =>
      simp only [GroupGetByDisplayName, h]
      rw [if_pos hlen]
  · intro g rest d h hlen hd hne
    have hnot : ¬(g :: rest).length > 2 := Nat.not_lt.mpr hlen
    simp only [GroupGetByDisplayName, h]
    rw [if_neg hnot]
    simp [hd, hne]
  · intro g
    cases hlc : client.listComplete (displayNameFilter name) with
    | error e =>
      simp [GroupGetByDisplayName, hlc]
    | ok values? =>
      cases values? with
      | none => simp [GroupGetByDisplayName, hlc]
      | some values =>
        cases values with
        | nil => simp [GroupGetByDisplayName, hlc]
        | cons g0 rest =>
          by_cases hlen : (g0 :: rest).length > 2
          · simp only [GroupGetByDisplayName, hlc]
            rw [if_pos hlen]
            intro hg
            cases hg
          · simp only [GroupGetByDisplayName, hlc]
            rw [if_neg hlen]
            cases hd : g0.displayName with
            | none =>
              intro hg
              simp at hg
            | some d =>
              by_cases hne : d ≠ name
              · intro hg
                simp [hne] at hg
              · push_neg at hne
                intro hg
                simp [hne] at hg
                subst hg
                refine ⟨g0 :: rest, rfl, ?_, rfl, ?_⟩
                · have hp : 0 < (g0 :: rest).length := by simp
                  omega
                · rw [hd, hne]

/-- Witness for C5: an empty listing produces the "found no AD Groups"
error. -/
theorem groupGetByDisplayName_strict_witness :
    GroupGetByDisplayName allFailClient "g0" =
      .error (.noGroupsFound (displayNameFilter "g0")) :=
  (groupGetByDisplayName_strict allFailClient "g0").1 rfl

/-- A client whose filtered listing returns exactly the given groups. -/
def pairClient (values : List ADGroup) : GroupsClient :=
  ⟨"tenant0", fun _ _ _ => none, fun _ _ => .ok [], fun _ _ => none,
    fun _ => .ok (some values), fun _ => .ok values⟩

/-- C10: when the filtered listing returns exactly two groups the function
inspects only the first: the result is unchanged under any replacement of
the second group, the first group is returned whenever its display name
exactly equals the query, and no value other than the first group can be
returned. -/
theorem groupGetByDisplayName_two_results_first_only (client client' : GroupsClient)
    (name : String) (g1 g2 g2' : ADGroup)
    (h : client.listComplete (displayNameFilter name) = .ok (some [g1, g2]))
    (h' : client'.listComplete (displayNameFilter name) = .ok (some [g1, g2'])) :
    GroupGetByDisplayName client name = GroupGetByDisplayName client' name ∧
    (g1.displayName = some name → GroupGetByDisplayName client name = .ok g1) ∧
    (∀ r, GroupGetByDisplayName client name = .ok r → r = g1) := by
  have hrun : ∀ (c : GroupsClient) (x : ADGroup),
      c.listComplete (displayNameFilter name) = .ok (some [g1, x]) →
      GroupGetByDisplayName c name =
        (match g1.displayName with
         | none => .error (.nilDisplayName (displayNameFilter name))
         | some d =>
           if d ≠ name then .error (.displayNameMismatch (displayNameFilter name) d name)
           else .ok g1) := by
    intro c x hc
    simp [GroupGetByDisplayName, hc]
  refine ⟨?_, ?_, ?_⟩
  · rw [hrun client g2 h, hrun client' g2' h']
  · intro hd
    rw [hrun client g2 h, hd]
    simp
  · intro r hr
    rw [hrun client g2 h] at hr
    cases hd : g1.displayName with
    | none =>
      rw [hd] at hr
      simp at hr
    | some d =>
      rw [hd] at hr
      simp only at hr
      by_cases hne : d ≠ name
      · rw [if_pos hne] at hr
        cases hr
      · rw [if_neg hne] at hr
        simpa using hr.symm

/-- Witness for C10: with two results whose first matches exactly, the
first group is returned. -/
theorem groupGetByDisplayName_two_results_first_only_witness :
    GroupGetByDisplayName (pairClient [⟨some "n0", some "1"⟩, ⟨some "x0", some "2"⟩]) "n0" =
      .ok ⟨some "n0", some "1"⟩ :=
  (groupGetByDisplayName_two_results_first_only
    (pairClient [⟨some "n0", some "1"⟩, ⟨some "x0", some "2"⟩])
    (pairClient [⟨some "n0", some "1"⟩, ⟨some "y0", some "3"⟩]) "n0"
    ⟨some "n0", some "1"⟩ ⟨some "x0", some "2"⟩ ⟨some "y0", some "3"⟩ rfl rfl).2.1 rfl

/-! ## The add-owner claim -/

/-- C6: `GroupAddOwner` issues exactly one remote `AddOwner` call
whatever its outcome, never retries and never sleeps, and on success
returns nil immediately without invoking the poller. -/
theorem groupAddOwner_single_attempt (client : GroupsClient) (g o : String) :
    (GroupAddOwner client g o).addOwnerCalls = 1 ∧
    (GroupAddOwner client g o).sleeps = 0 ∧
    (GroupAddOwner client g o).pollerInvocations = 0 ∧
    (client.addOwner g (directoryObjectGraphURL client.tenantID o) = none →
      (GroupAddOwner client g o).result = none) ∧
    (∀ e, client.addOwner g (directoryObjectGraphURL client.tenantID o) = some e →
      (GroupAddOwner client g o).result = some (.addingGroupOwner o g e)) := by
  cases ho : client.addOwner g (directoryObjectGraphURL client.tenantID o) with
  | none =>
    refine ⟨by simp [GroupAddOwner, ho], by simp [GroupAddOwner, ho],
      by simp [GroupAddOwner, ho], fun _ => by simp [GroupAddOwner, ho],
      fun e he => ?_⟩
    cases he
  | some e0 =>
    refine ⟨by simp [GroupAddOwner, ho], by simp [GroupAddOwner, ho],
      by simp [GroupAddOwner, ho], fun hn => ?_, fun e he => ?_⟩
    · cases hn
    · cases he
      simp [GroupAddOwner, ho]

/-- Witness for C6 at a concrete client: one call, no sleep, no poll,
nil result on success. -/
theorem groupAddOwner_single_attempt_witness :
    (GroupAddOwner allFailClient "g0" "o0").addOwnerCalls = 1 ∧
    (GroupAddOwner allFailClient "g0" "o0").sleeps = 0 ∧
    (GroupAddOwner allFailClient "g0" "o0").pollerInvocations = 0 ∧
    (GroupAddOwner allFailClient "g0" "o0").result = none :=
  ⟨(groupAddOwner_single_attempt allFailClient "g0" "o0").1,
    (groupAddOwner_single_attempt allFailClient "g0" "o0").2.1,
    (groupAddOwner_single_attempt allFailClient "g0" "o0").2.2.1,
    (groupAddOwner_single_attempt allFailClient "g0" "o0").2.2.2.1 rfl⟩

/-! ## The add-members claim -/

/-- C9: `GroupAddMembers` applies `GroupAddMember` to the members
sequentially in list order; if some member fails it stops right there,
invoking `GroupAddMember` on no later element (and performing no removal
of earlier members — the invocation list is its complete remote
footprint), and returns an error naming the group and wrapping the
failure; if every member succeeds it returns nil having processed the
whole list in order. -/
theorem groupAddMembers_sequential (client : GroupsClient) (pollBudget : Nat) (g : String) :
    (∀ ms, (∀ m ∈ ms, (GroupAddMember client pollBudget g m).result = .ok none) →
      GroupAddMembers client pollBudget g ms = (ms, .ok none)) ∧
    (∀ pre m post e,
      (∀ m' ∈ pre, (GroupAddMember client pollBudget g m').result = .ok none) →
      (GroupAddMember client pollBudget g m).result = .ok (some e) →
      GroupAddMembers client pollBudget g (pre ++ m :: post) =
        (pre ++ [m], .ok (some (.whileAddingMembers g e)))) := by
  constructor
  · intro ms
    induction ms with
    | nil => intro _; rfl
    | cons m rest ih =>
      intro h
      have hm := h m (List.mem_cons_self _ _)
      simp only [GroupAddMembers, hm]
      rw [ih (fun q hq => h q (List.mem_cons_of_mem _ hq))]
  · intro pre
    induction pre with
    | nil =>
      intro m post e _ hm
      simp [GroupAddMembers, hm]
    | cons m0 rest ih =>
      intro m post e hpre hm
      have h0 := hpre m0 (List.mem_cons_self _ _)
      simp only [List.cons_append, GroupAddMembers, h0, List.append_eq]
      rw [ih m post e (fun q hq => hpre q (List.mem_cons_of_mem _ hq)) hm]

/-- Witness for C9: a succeeding member is processed to completion, and
with a failing client the first member aborts the sequence before the
second is attempted. -/
theorem groupAddMembers_sequential_witness :
    GroupAddMembers failThriceClient 1 "g0" ["m0"] = (["m0"], .ok none) ∧
    GroupAddMembers allFailClient 1 "g0" ["m1", "m2"] =
      (["m1"], .ok (some (.whileAddingMembers "g0"
        (.addingGroupMember "m1" "g0" "transient remote failure")))) := by
  constructor
  · exact (groupAddMembers_sequential failThriceClient 1 "g0").1 ["m0"]
      (by intro m hm; simp only [List.mem_singleton] at hm; subst hm; decide)
  · exact (groupAddMembers_sequential allFailClient 1 "g0").2 [] "m1" ["m2"]
      (.addingGroupMember "m1" "g0" "transient remote failure")
      (by intro m hm; simp at hm) (by decide)
